/-
Formal model of the YHandler fantasy-sports client library's
response-normalization layer and resource graph.

The Python source is shallowly embedded: JSON values become the inductive
`Json`; Python dicts become association lists with update-in-place insert;
Python exceptions (KeyError, TypeError, ValueError, AttributeError, the
spec's DecodeError taxonomy) become an explicit error type threaded through
`Except`.  Each definition transcribes one Python function from the
repository; file and line references are given in the doc comments.
-/
import Mathlib

namespace YHandler

/-- A JSON value as parsed by Python's `json` module: the shapes the Yahoo
Fantasy API returns.  Numbers are modelled as integers (no claim exercises
floats). -/
inductive Json where
  | null : Json
  | bool (b : Bool) : Json
  | num (n : Int) : Json
  | str (s : String) : Json
  | arr (elems : List Json) : Json
  | obj (fields : List (String × Json)) : Json

/-- A Python dict with JSON values: an association list.  Lookup finds the
first binding; `dictInsert` updates in place, so the list always reflects
the dict's mapping. -/
abbrev AList := List (String × Json)

/-- First-match association lookup (`k in d` / `d[k]` on a Python dict). -/
def alookup : AList → String → Option Json
  | [], _ => none
  | (k', v) :: rest, k => if k' = k then some v else alookup rest k

/-- `d[k] = v` on a Python dict: replace the existing binding in place, or
append a fresh one. -/
def dictInsert : AList → String → Json → AList
  | [], k, v => [(k, v)]
  | (k', v') :: rest, k, v =>
      if k' = k then (k', v) :: rest else (k', v') :: dictInsert rest k v

/-- `acc.update(m)` on Python dicts: insert every binding of `m` into `acc`,
left to right. -/
def mergeDict (acc m : AList) : AList :=
  m.foldl (fun a kv => dictInsert a kv.1 kv.2) acc

/-- The Python exceptions the embedded code can raise.  In the spec's error
taxonomy these all surface as DecodeError-style failures. -/
inductive PyErr where
  | keyError (k : String) : PyErr
  | indexError : PyErr
  | typeError : PyErr
  | valueError : PyErr
  | attributeError (name : String) : PyErr
deriving DecidableEq, Repr

/-- Python truthiness (`bool(x)`) of a JSON value. -/
def pyTruthy : Json → Bool
  | .null => false
  | .bool b => b
  | .num n => n ≠ 0
  | .str s => s ≠ ""
  | .arr l => !l.isEmpty
  | .obj l => !l.isEmpty

/-- Whether a JSON value is a Python dict. -/
def isObjB : Json → Bool
  | .obj _ => true
  | _ => false

/-- Whether a JSON value is a Python list. -/
def isArrB : Json → Bool
  | .arr _ => true
  | _ => false

/-- Python's `x == []`: true exactly for the empty list (an empty dict or
empty string does not compare equal to `[]`). -/
def isEmptyArr : Json → Bool
  | .arr [] => true
  | _ => false

/-- Python subscript `x[k]` with a string key: KeyError on a dict missing
the key, TypeError on any non-dict. -/
def getItem (j : Json) (k : String) : Except PyErr Json :=
  match j with
  | .obj kvs =>
      match alookup kvs k with
      | some v => .ok v
      | none => .error (.keyError k)
  | _ => .error .typeError

/-- Python subscript `x[i]` with a non-negative integer index: IndexError
past the end of a list, KeyError on a dict (JSON object keys are strings),
TypeError on scalars. -/
def getIdx (j : Json) (i : Nat) : Except PyErr Json :=
  match j with
  | .arr l =>
      match l.get? i with
      | some v => .ok v
      | none => .error .indexError
  | .obj _ => .error (.keyError (toString i))
  | .str s =>
      match s.data.get? i with
      | some c => .ok (.str (String.singleton c))
      | none => .error .indexError
  | _ => .error .typeError

/-- Python iteration `for item in x`: a list yields its elements, a dict its
keys (as strings), a string its characters; scalars raise TypeError. -/
def pyIter (j : Json) : Except PyErr (List Json) :=
  match j with
  | .arr l => .ok l
  | .obj kvs => .ok (kvs.map (fun kv => .str kv.1))
  | .str s => .ok (s.data.map (fun c => .str (String.singleton c)))
  | _ => .error .typeError

/-- Sequential effectful map over a list, stopping at the first error:
the semantics of a Python list comprehension over a fallible body. -/
def mapExcept (f : α → Except PyErr β) : List α → Except PyErr (List β)
  | [] => .ok []
  | x :: xs => do
      let y ← f x
      let ys ← mapExcept f xs
      .ok (y :: ys)

/-- The index-collection loop of `YahooApiData._unwrap_array`
(`src/YHandler/resources/base.py:32`): `[data[str(i)] for i in range(n)]`. -/
def rangeCollect (data : Json) (n : Nat) : Except PyErr (List Json) :=
  mapExcept (fun i => getItem data (toString i)) (List.range n)

/-- `YahooApiData._unwrap_array` (`src/YHandler/resources/base.py:12-32`,
identical in `src/YHandler/resources.py:17-37`):
`[data[str(i)] for i in range(data['count'])]`.  `data['count']` raises
KeyError when absent; `range` accepts an integer (a bool counts as 0/1,
`range` of a negative integer is empty) and raises TypeError otherwise —
the count is used as-is, never cast. -/
def unwrap_array (data : Json) : Except PyErr (List Json) := do
  let c ← getItem data "count"
  match c with
  | .num n => rangeCollect data n.toNat
  | .bool b => rangeCollect data (if b then 1 else 0)
  | _ => .error .typeError

/-- `YahooApiData._flatten_array` (`src/YHandler/resources/base.py:34-52`):
`[item[key] for item in data]`. -/
def flatten_array (data : Json) (key : String) : Except PyErr (List Json) := do
  let items ← pyIter data
  mapExcept (fun item => getItem item key) items

/-- One iteration of the `_unwrap_dict` loop
(`src/YHandler/resources/base.py:77-87`): skip an element equal to `[]`,
merge a dict element's pairs into the accumulator (later keys overwrite
earlier), raise AttributeError (`item.iteritems()`) on anything else. -/
def unwrapDictStep (acc : AList) (item : Json) : Except PyErr AList :=
  match item with
  | .arr [] => .ok acc
  | .obj kvs => .ok (mergeDict acc kvs)
  | _ => .error (.attributeError "iteritems")

/-- The accumulating loop of `_unwrap_dict` over the already-iterated
elements. -/
def unwrapDictLoop (acc : AList) : List Json → Except PyErr AList
  | [] => .ok acc
  | item :: rest => do
      let acc' ← unwrapDictStep acc item
      unwrapDictLoop acc' rest

/-- `YahooApiData._unwrap_dict` (`src/YHandler/resources/base.py:54-87`):
iterate `data` left-to-right, skip elements equal to `[]`, merge every
dict element's key/value pairs into one result dict. -/
def unwrap_dict (data : Json) : Except PyErr AList := do
  let items ← pyIter data
  unwrapDictLoop [] items

/-- `YahooApiData.__getattr__` (`src/YHandler/resources/base.py:6-10`):
`if attribute not in self._api_dict: raise AttributeError(attribute);
return self._api_dict[attribute]`. -/
def getattrProxy (d : AList) (attrName : String) : Except PyErr Json :=
  if (alookup d attrName).isSome then
    match alookup d attrName with
    | some v => .ok v
    | none => .error (.keyError attrName)
  else .error (.attributeError attrName)

/-- `YahooManagerResource.is_current_login`
(`src/YHandler/resources/league.py:6-10`):
`bool(self._api_dict.get('is_current_login', False))`, over the manager's
attribute dict. -/
def managerIsCurrentLogin (d : AList) : Bool :=
  pyTruthy ((alookup d "is_current_login").getD (.bool false))

/-- `YahooTeamResource.is_current_login`
(`src/YHandler/resources/league.py:119-122`):
`any([m.is_current_login for m in self.managers])`, over the list of the
team's manager attribute dicts. -/
def teamManagersCurrentLogin (managers : List AList) : Bool :=
  managers.any managerIsCurrentLogin

/-- A constructed `YahooTeamResource` as far as `get_team` observes it: its
own attribute dict and its managers' attribute dicts. -/
structure YahooTeam where
  attrs : AList
  managers : List AList

/-- `is_current_login` of a constructed team. -/
def YahooTeam.isCurrentLogin (t : YahooTeam) : Bool :=
  teamManagersCurrentLogin t.managers

/-- `YahooLeagueResource.get_team` (`src/YHandler/resources/league.py:234-240`):
scan `get_teams()` in order and return the first team whose
`is_current_login` holds; falling off the loop returns Python `None`
(the `# TODO Raise exception` branch), modelled as `none`. -/
def get_team (teams : List YahooTeam) : Option YahooTeam :=
  teams.find? YahooTeam.isCurrentLogin

/-- `YahooLeagueResource.is_finished` (`src/YHandler/resources/league.py:177-179`):
`bool(self._api_dict.get('is_finished', False))` over a league attribute
dict; calling it on a non-dict payload raises AttributeError (`.get`). -/
def leagueIsFinishedB : Json → Bool
  | .obj kvs => pyTruthy ((alookup kvs "is_finished").getD (.bool false))
  | _ => false

/-- `is_finished` with the failure on non-dict payloads made explicit. -/
def leagueIsFinishedE : Json → Except PyErr Bool
  | .obj kvs => .ok (pyTruthy ((alookup kvs "is_finished").getD (.bool false)))
  | _ => .error (.attributeError "get")

/-- Innermost loop of `YahooGameResource.get_leagues`
(`src/YHandler/resources/game.py:180-187`): for each entry of the decoded
leagues counted-array, take `league['league'][0]` as the new League's
payload; `if active_only and league.is_finished: continue` skips finished
leagues (`is_finished` is only evaluated when `active_only` is set). -/
def leaguesLoop (activeOnly : Bool) : List Json → Except PyErr (List Json)
  | [] => .ok []
  | lg :: rest =>
      match getItem lg "league" >>= (getIdx · 0) with
      | .error e => .error e
      | .ok payload =>
          match cond activeOnly (leagueIsFinishedE payload) (.ok false) with
          | .error e => .error e
          | .ok fin =>
              match leaguesLoop activeOnly rest with
              | .error e => .error e
              | .ok tail =>
                  cond (activeOnly && fin) (.ok tail) (.ok (payload :: tail))

/-- Middle loop of `get_leagues` (`src/YHandler/resources/game.py:179`):
for each game entry, decode `game['game'][1]['leagues']` as a
counted-array and run the leagues loop. -/
def gamesLoop (activeOnly : Bool) : List Json → Except PyErr (List Json)
  | [] => .ok []
  | g :: rest =>
      match getItem g "game" >>= (getIdx · 1) >>= (getItem · "leagues")
          >>= unwrap_array with
      | .error e => .error e
      | .ok leagues =>
          match leaguesLoop activeOnly leagues with
          | .error e => .error e
          | .ok here =>
              match gamesLoop activeOnly rest with
              | .error e => .error e
              | .ok tail => .ok (here ++ tail)

/-- Outer loop of `get_leagues` (`src/YHandler/resources/game.py:178`):
for each user entry, decode `user['user'][1]['games']` as a counted-array
and run the games loop. -/
def usersLoop (activeOnly : Bool) : List Json → Except PyErr (List Json)
  | [] => .ok []
  | u :: rest =>
      match getItem u "user" >>= (getIdx · 1) >>= (getItem · "games")
          >>= unwrap_array with
      | .error e => .error e
      | .ok games =>
          match gamesLoop activeOnly games with
          | .error e => .error e
          | .ok here =>
              match usersLoop activeOnly rest with
              | .error e => .error e
              | .ok tail => .ok (here ++ tail)

/-- `YahooGameResource.get_leagues` (`src/YHandler/resources/game.py:156-189`)
applied to the decoded top-level response `data`: walk the 3-level nested
counted-array structure users → games → leagues and collect each leaf
league's payload (`league['league'][0]`) in traversal order, skipping
finished leagues when `activeOnly` is set. -/
def get_leagues (data : Json) (activeOnly : Bool) : Except PyErr (List Json) :=
  match getItem data "users" >>= unwrap_array with
  | .error e => .error e
  | .ok users => usersLoop activeOnly users

/-- One HTTP response as `api_req` observes it: the status code, the raw
body (`response.content`), and the result of `response.json()` (`none`
when the body is not valid JSON, in which case `.json()` raises
ValueError). -/
structure HttpResponse where
  status : Nat
  content : String
  jsonBody : Option Json

/-- The error message carried by a raised `YahooApiException`: either the
value found at `error.description` in the body's JSON, or the raw body. -/
inductive ApiMessage where
  | fromField (v : Json) : ApiMessage
  | raw (s : String) : ApiMessage

/-- What a call of `api_req` can raise: the structured
`YahooApiException` (status plus message) from
`src/YHandler/base.py:151-152`, or an uncaught Python exception. -/
inductive ReqError where
  | apiError (status : Nat) (message : ApiMessage) : ReqError
  | pyError (e : PyErr) : ReqError

/-- `response.json()`: the parsed body, or ValueError when the body is not
valid JSON. -/
def respJsonE (r : HttpResponse) : Except PyErr Json :=
  match r.jsonBody with
  | some j => .ok j
  | none => .error .valueError

/-- The error-message extraction of `api_req` (`src/YHandler/base.py:145-149`):
`try: message = response.json()['error']['description']
except (ValueError, KeyError): message = response.content`.
A TypeError (subscripting a non-dict) is not caught and propagates. -/
def extractErrorMessage (r : HttpResponse) : Except PyErr ApiMessage :=
  match respJsonE r >>= (getItem · "error") >>= (getItem · "description") with
  | .ok v => .ok (.fromField v)
  | .error .valueError => .ok (.raw r.content)
  | .error (.keyError _) => .ok (.raw r.content)
  | .error e => .error e

/-- The success path of `api_req` (`src/YHandler/base.py:154-156`):
`response.json()['fantasy_content']`. -/
def unwrapFantasyContent (r : HttpResponse) : Except PyErr Json :=
  respJsonE r >>= (getItem · "fantasy_content")

/-- `YahooFantasySports.api_req` (`src/YHandler/base.py:119-156`), after
authentication is in place.  The transport is a stream of responses
(`respond i` is the response to the i-th HTTP call of this invocation).
Returned alongside the result: the number of HTTP calls made and the
number of `refresh_token()` calls made.  The code issues the request, and
on a non-200 status refreshes the token once and retries the same request
once; a second non-200 raises `YahooApiException(status, message)`;
otherwise the body's payload under the `'fantasy_content'` wrapper key is
returned. -/
def api_req (respond : Nat → HttpResponse) :
    Except ReqError Json × Nat × Nat :=
  let r1 := respond 0
  if r1.status = 200 then
    ((unwrapFantasyContent r1).mapError .pyError, 1, 0)
  else
    let r2 := respond 1
    if r2.status = 200 then
      ((unwrapFantasyContent r2).mapError .pyError, 2, 1)
    else
      match extractErrorMessage r2 with
      | .ok msg => (.error (.apiError r2.status msg), 2, 1)
      | .error e => (.error (.pyError e), 2, 1)

/-- One iteration of the merge loop in `YahooPlayerResource.__init__`
(`src/YHandler/resources/league.py:36-40`): a list-form element merges
`self._unwrap_dict(api_dict[0])` — the flattening of the payload's FIRST
element, not of the element itself; a dict-form element merges its own
pairs; any other element is silently skipped (no matching branch). -/
def playerItemMerge (firstElem : Option Json) (acc : AList) (item : Json) :
    Except PyErr AList :=
  match item with
  | .arr _ =>
      match firstElem with
      | some f => (unwrap_dict f).map (mergeDict acc)
      | none => .ok acc
  | .obj kvs => .ok (mergeDict acc kvs)
  | _ => .ok acc

/-- The merge loop of `YahooPlayerResource.__init__` over the payload's
elements, carrying the payload's first element for the list-form branch. -/
def playerMergeLoop (firstElem : Option Json) (acc : AList) :
    List Json → Except PyErr AList
  | [] => .ok acc
  | item :: rest =>
      match playerItemMerge firstElem acc item with
      | .error e => .error e
      | .ok acc' => playerMergeLoop firstElem acc' rest

/-- The merge phase of `YahooPlayerResource.__init__` as the code performs
it. -/
def playerMergeCode (payload : List Json) : Except PyErr AList :=
  playerMergeLoop payload.head? [] payload

/-- One step of the merge phase as the specification describes it: "each
list-form element contributing via the flattened single-key-array decode"
— of the element itself.  Modelled from the spec for comparison with
`playerItemMerge`. -/
def playerItemMergeSpec (acc : AList) (item : Json) : Except PyErr AList :=
  match item with
  | .arr _ => (unwrap_dict item).map (mergeDict acc)
  | .obj kvs => .ok (mergeDict acc kvs)
  | _ => .ok acc

/-- The spec-described merge loop. -/
def playerMergeSpecLoop (acc : AList) : List Json → Except PyErr AList
  | [] => .ok acc
  | item :: rest =>
      match playerItemMergeSpec acc item with
      | .error e => .error e
      | .ok acc' => playerMergeSpecLoop acc' rest

/-- The merge phase as the specification describes it.  Modelled from the
spec for comparison with `playerMergeCode`. -/
def playerMergeSpec (payload : List Json) : Except PyErr AList :=
  playerMergeSpecLoop [] payload

/-- `YahooPlayerResource.__init__` (`src/YHandler/resources/league.py:33-48`):
merge the payload's elements into one attribute dict, then replace
`eligible_positions` by `self._flatten_array(..., 'position')` and
`selected_position` by `self._unwrap_dict(...)` (each subscript raising
KeyError when the key is absent). -/
def playerInit (payload : List Json) : Except PyErr AList := do
  let d ← playerMergeCode payload
  let ep ← match alookup d "eligible_positions" with
    | some v => .ok v
    | none => .error (.keyError "eligible_positions")
  let epFlat ← flatten_array ep "position"
  let d := dictInsert d "eligible_positions" (.arr epFlat)
  let sp ← match alookup d "selected_position" with
    | some v => .ok v
    | none => .error (.keyError "selected_position")
  let spM ← unwrap_dict sp
  .ok (dictInsert d "selected_position" (.obj spM))

/-- The fields of a JSON value when it is a dict. -/
def objFields : Json → Option AList
  | .obj kvs => some kvs
  | _ => none

/-- First-of-two option choice, used to state last-write-wins lookups. -/
def ofirst (a b : Option Json) : Option Json :=
  match a with
  | some v => some v
  | none => b

/-- Spec-side reading of "later keys overwrite earlier ones": look a key up
in the reversed concatenation of all dict elements' field lists, so the
last binding in iteration order wins. -/
def lastWins (elems : List Json) (k : String) : Option Json :=
  alookup ((elems.filterMap objFields).flatten.reverse) k

/-- Example input of the flattened single-key-array decode from the spec:
`[{"a":1}, {"b":2}, [], {"a":3}]`. -/
def exFlattenElems : List Json :=
  [.obj [("a", .num 1)], .obj [("b", .num 2)], .arr [], .obj [("a", .num 3)]]

/-- Leaf league payload `L1` (not finished). -/
def exLg1 : Json := .obj [("league_key", .str "L1")]

/-- Leaf league payload `L2` (finished). -/
def exLg2 : Json := .obj [("league_key", .str "L2"), ("is_finished", .num 1)]

/-- The tuple-wrapped league entries of the example response. -/
def exLeagueEntries : Json :=
  .obj [("count", .num 2),
    ("0", .obj [("league", .arr [exLg1])]),
    ("1", .obj [("league", .arr [exLg2])])]

/-- The single game entry of the example response. -/
def exGameEntry : Json :=
  .obj [("game", .arr [.obj [], .obj [("leagues", exLeagueEntries)]])]

/-- The single user entry of the example response. -/
def exUserEntry : Json :=
  .obj [("user", .arr [.obj [],
    .obj [("games", .obj [("count", .num 1), ("0", exGameEntry)])]])]

/-- A 3-level nested users→games→leagues counted-array response holding
`exLg1` and `exLg2` under one user and one game. -/
def exLeaguesData : Json :=
  .obj [("users", .obj [("count", .num 1), ("0", exUserEntry)])]

/-- A Player payload in the usual shape: one list-form element, flattened
single-key-array style, with the spec's eligible_positions example. -/
def exPlayerPayload : List Json :=
  [.arr [.obj [("eligible_positions",
      .arr [.obj [("position", .str "C")], .obj [("position", .str "LW")]])],
    .obj [("selected_position", .arr [])]]]

/-- A Player payload with TWO list-form elements: the second one carries a
`status` field that the constructor, which always flattens the payload's
first element, never merges. -/
def exPlayerPayloadTwoLists : List Json :=
  [.arr [.obj [("eligible_positions", .arr [])],
    .obj [("selected_position", .arr [])]],
   .arr [.obj [("status", .str "IR")]]]

/-- A team whose single manager lacks the `is_current_login` field. -/
def exTeamNo : YahooTeam :=
  ⟨[("team_key", .str "t1")], [[("nickname", .str "a")]]⟩

/-- A team whose single manager carries a truthy `is_current_login`. -/
def exTeamYes : YahooTeam :=
  ⟨[("team_key", .str "t2")], [[("is_current_login", .num 1)]]⟩

/-- A second current-login team, to exercise first-match order. -/
def exTeamYes2 : YahooTeam :=
  ⟨[("team_key", .str "t3")], [[("is_current_login", .num 1)]]⟩

theorem mapExcept_ok_of_all {f : α → Except PyErr β} {g : α → β} :
    ∀ {l : List α}, (∀ x ∈ l, f x = .ok (g x)) → mapExcept f l = .ok (l.map g)
  | [], _ => rfl
  | x :: xs, h => by
      have hx := h x (List.mem_cons_self x xs)
      have hxs := mapExcept_ok_of_all (f := f) (g := g)
        (fun y hy => h y (List.mem_cons_of_mem x hy))
      simp [mapExcept, hx, hxs, Bind.bind, Except.bind]

theorem mapExcept_ok_forall {f : α → Except PyErr β} :
    ∀ {l : List α} {out : List β}, mapExcept f l = .ok out →
      ∀ x ∈ l, ∃ y, f x = .ok y := by
  intro l
  induction l with
  | nil => intro out _ x hx; cases hx
  | cons a as ih =>
      intro out hok x hx
      rcases hfa : f a with e | y
      · rw [mapExcept, hfa] at hok
        exact absurd hok (by simp [Bind.bind, Except.bind])
      · rcases List.mem_cons.mp hx with rfl | hmem
        · exact ⟨y, hfa⟩
        · rw [mapExcept, hfa] at hok
          rcases hrest : mapExcept f as with e | ys
          · rw [hrest] at hok
            exact absurd hok (by simp [Bind.bind, Except.bind])
          · exact ih hrest x hmem

theorem exists_error_of_no_ok {x : Except ε α} (h : ¬ ∃ a, x = .ok a) :
    ∃ e, x = .error e := by
  rcases x with e | a
  · exact ⟨e, rfl⟩
  · exact absurd ⟨a, rfl⟩ h

/-- C1: for every N ≥ 0 and every input map carrying `"count": N` and keys
`"0"..`"N-1"` bound to `a 0 .. a (N-1)`, `_unwrap_array` returns the
sequence `[a 0, ..., a (N-1)]` in index order (exactly N elements); when
the `"count"` key is missing it raises KeyError("count") (the DecodeError
of the spec's taxonomy), and when `"count"` is present but some index key
`"i"` with i < N is missing it raises an error rather than returning a
partial result. -/
theorem unwrap_array_counted_decode :
    (∀ (data : Json) (n : Nat) (a : Nat → Json),
      getItem data "count" = .ok (.num n) →
      (∀ i, i < n → getItem data (toString i) = .ok (a i)) →
      unwrap_array data = .ok ((List.range n).map a))
    ∧ (∀ kvs : AList,
      alookup kvs "count" = none →
      unwrap_array (.obj kvs) = .error (.keyError "count"))
    ∧ (∀ (data : Json) (n : Nat) (i : Nat),
      getItem data "count" = .ok (.num n) →
      i < n →
      getItem data (toString i) = .error (.keyError (toString i)) →
      ∃ e, unwrap_array data = .error e) := by
  refine ⟨?_, ?_, ?_⟩
  · intro data n a hc hi
    have hr : rangeCollect data n = .ok ((List.range n).map a) :=
      mapExcept_ok_of_all (fun i hmem => hi i (List.mem_range.mp hmem))
    simp [unwrap_array, hc, Bind.bind, Except.bind, Int.toNat_natCast, hr]
  · intro kvs h
    simp [unwrap_array, getItem, h, Bind.bind, Except.bind]
  · intro data n i hc hlt hmiss
    apply exists_error_of_no_ok
    rintro ⟨out, hok⟩
    rw [unwrap_array] at hok
    rw [hc] at hok
    simp only [Bind.bind, Except.bind] at hok
    rw [Int.toNat_natCast] at hok
    obtain ⟨y, hy⟩ :=
      mapExcept_ok_forall hok i (List.mem_range.mpr hlt)
    rw [hmiss] at hy
    cases hy

/-- Witness for C1 at N = 2 with a0 = "a", a1 = "b". -/
theorem unwrap_array_counted_decode_witness :
    unwrap_array (.obj [("count", .num 2), ("0", .str "a"), ("1", .str "b")])
      = .ok [.str "a", .str "b"] :=
  unwrap_array_counted_decode.1
    (.obj [("count", .num 2), ("0", .str "a"), ("1", .str "b")]) 2
    (fun i => if i = 0 then .str "a" else .str "b") rfl
    (fun i hi =>
      match i, hi with
      | 0, _ => rfl
      | 1, _ => rfl)

/-- C5 counterexample: with a numeric-string count `"2"`, the decode does
not cast and succeed — `range('2')` raises TypeError, so no element list
is ever produced. -/
theorem unwrap_array_string_count_counterexample :
    unwrap_array (.obj [("count", .str "2"), ("0", .str "a"), ("1", .str "b")])
        = .error .typeError
      ∧ unwrap_array (.obj [("count", .str "2"), ("0", .str "a"), ("1", .str "b")])
        ≠ .ok [.str "a", .str "b"] :=
  ⟨rfl, fun h => Except.noConfusion h⟩

/-- C5 amended: the counted-array decode performs no cast of the count —
whenever the `"count"` value is a string (numeric or not), the decode
fails with TypeError instead of using it as a loop bound. -/
theorem unwrap_array_no_count_cast :
    ∀ (data : Json) (s : String),
      getItem data "count" = .ok (.str s) →
      unwrap_array data = .error .typeError := by
  intro data s h
  simp [unwrap_array, h, Bind.bind, Except.bind]

/-- Witness for the C5 amendment at count `"2"`. -/
theorem unwrap_array_no_count_cast_witness :
    unwrap_array (.obj [("count", .str "2"), ("0", .str "a"), ("1", .str "b")])
      = .error .typeError :=
  unwrap_array_no_count_cast
    (.obj [("count", .str "2"), ("0", .str "a"), ("1", .str "b")]) "2" rfl

/-- C9: attribute proxying reads from the attribute dict — a present field
is returned unchanged, an absent field raises AttributeError (the
NotFound-style error), never a default. -/
theorem getattr_notfound_or_value :
    ∀ (d : AList) (name : String),
      (∀ v, alookup d name = some v → getattrProxy d name = .ok v)
      ∧ (alookup d name = none →
        getattrProxy d name = .error (.attributeError name)) := by
  intro d name
  constructor
  · intro v hv
    simp [getattrProxy, hv]
  · intro hn
    simp [getattrProxy, hn]

/-- Witness for C9: a present field and an absent field on a one-field
dict. -/
theorem getattr_notfound_or_value_witness :
    getattrProxy [("x", .num 1)] "x" = .ok (.num 1)
    ∧ getattrProxy [("x", .num 1)] "y" = .error (.attributeError "y") :=
  ⟨(getattr_notfound_or_value [("x", .num 1)] "x").1 (.num 1) rfl,
   (getattr_notfound_or_value [("x", .num 1)] "y").2 rfl⟩

/-- C4: `get_team` evaluated by the code.  With no current-login team the
loop falls through and Python returns `None` — no NotFound error is
raised (the `# TODO Raise exception` is unimplemented); with matches
present the first one in source order is returned. -/
theorem get_team_none_when_absent :
    get_team [exTeamNo] = none
    ∧ get_team [exTeamNo, exTeamYes, exTeamYes2] = some exTeamYes :=
  ⟨rfl, rfl⟩

theorem ofirst_assoc (a b c : Option Json) :
    ofirst (ofirst a b) c = ofirst a (ofirst b c) := by
  cases a <;> rfl

theorem alookup_append (xs ys : AList) (k : String) :
    alookup (xs ++ ys) k = ofirst (alookup xs k) (alookup ys k) := by
  induction xs with
  | nil => rfl
  | cons p ps ih =>
      by_cases h : p.1 = k
      · simp [alookup, h, ofirst]
      · simp [alookup, h, ih]

theorem alookup_dictInsert (d : AList) (kI : String) (v : Json) (k : String) :
    alookup (dictInsert d kI v) k =
      if kI = k then some v else alookup d k := by
  induction d with
  | nil => by_cases h : kI = k <;> simp [dictInsert, alookup, h]
  | cons p ps ih =>
      obtain ⟨a, b⟩ := p
      by_cases hak : a = kI
      · subst hak
        simp only [dictInsert, if_pos rfl]
        by_cases hk : a = k
        · simp [alookup, hk]
        · simp [alookup, hk]
      · simp only [dictInsert, if_neg hak]
        by_cases hk : a = k
        · have hkIk : ¬ kI = k := fun hh => hak (by rw [hh, hk])
          simp [alookup, hk, hkIk]
        · simp [alookup, hk, ih]

theorem alookup_mergeDict (m : AList) :
    ∀ (acc : AList) (k : String),
      alookup (mergeDict acc m) k =
        ofirst (alookup m.reverse k) (alookup acc k) := by
  induction m with
  | nil => intro acc k; rfl
  | cons p ps ih =>
      intro acc k
      have step : mergeDict acc (p :: ps) = mergeDict (dictInsert acc p.1 p.2) ps := rfl
      rw [step, ih (dictInsert acc p.1 p.2) k]
      rw [List.reverse_cons, alookup_append, alookup_dictInsert]
      cases hps : alookup ps.reverse k with
      | some v => simp [ofirst]
      | none =>
          by_cases h : p.1 = k
          · simp [ofirst, alookup, h]
          · simp [ofirst, alookup, h]

theorem unwrapDictLoop_lastWins :
    ∀ (elems : List Json) (acc : AList),
      (∀ e ∈ elems, isObjB e = true ∨ isEmptyArr e = true) →
      ∃ m, unwrapDictLoop acc elems = .ok m ∧
        ∀ k, alookup m k = ofirst (lastWins elems k) (alookup acc k) := by
  intro elems
  induction elems with
  | nil =>
      intro acc _
      exact ⟨acc, rfl, fun k => rfl⟩
  | cons e rest ih =>
      intro acc hgood
      have hrest : ∀ x ∈ rest, isObjB x = true ∨ isEmptyArr x = true :=
        fun x hx => hgood x (List.mem_cons_of_mem e hx)
      rcases hgood e (List.mem_cons_self e rest) with hobj | hempty
      · rcases he : e with _ | _ | _ | _ | _ | kvs <;> simp [isObjB, he] at hobj
        obtain ⟨m, hm, hlk⟩ := ih (mergeDict acc kvs) hrest
        refine ⟨m, ?_, ?_⟩
        · simp [unwrapDictLoop, unwrapDictStep, Bind.bind, Except.bind]
          exact hm
        · intro k
          rw [hlk k, alookup_mergeDict]
          rw [show lastWins (Json.obj kvs :: rest) k =
            ofirst (lastWins rest k) (alookup kvs.reverse k) from ?_]
          · exact (ofirst_assoc _ _ _).symm
          · unfold lastWins
            simp only [List.filterMap_cons, objFields]
            rw [List.flatten_cons, List.reverse_append, alookup_append]
      · rcases he : e with _ | _ | _ | _ | l | _ <;> simp [isEmptyArr, he] at hempty
        cases l with
        | nil =>
            obtain ⟨m, hm, hlk⟩ := ih acc hrest
            refine ⟨m, ?_, ?_⟩
            · simp [unwrapDictLoop, unwrapDictStep, Bind.bind, Except.bind]
              exact hm
            · intro k
              rw [hlk k]
              unfold lastWins
              simp [List.filterMap_cons, objFields]
        | cons x xs => simp [isEmptyArr] at hempty

theorem ofirst_none (a : Option Json) : ofirst a none = a := by
  cases a <;> rfl

/-- C3: `_unwrap_dict` iterates its input first-to-last, skips every
element equal to the empty sequence without error, and merges the
remaining elements' key/value pairs with later bindings overwriting
earlier ones of the same name (lookup in the result equals lookup in the
reversed concatenation of all dict elements' fields); in particular
`[{"a":1}, {"b":2}, [], {"a":3}]` decodes to `{"a": 3, "b": 2}`. -/
theorem unwrap_dict_flatten_correct :
    (∀ (elems : List Json) (k : String),
      (∀ e ∈ elems, isObjB e = true ∨ isEmptyArr e = true) →
      ∃ m, unwrap_dict (.arr elems) = .ok m ∧ alookup m k = lastWins elems k)
    ∧ unwrap_dict (.arr exFlattenElems) = .ok [("a", .num 3), ("b", .num 2)] := by
  constructor
  · intro elems k h
    obtain ⟨m, hm, hlk⟩ := unwrapDictLoop_lastWins elems [] h
    refine ⟨m, hm, ?_⟩
    rw [hlk k]
    exact ofirst_none _
  · rfl

/-- Witness for C3 on the spec's example, looking up key "a". -/
theorem unwrap_dict_flatten_correct_witness :
    ∃ m, unwrap_dict (.arr exFlattenElems) = .ok m
      ∧ alookup m "a" = lastWins exFlattenElems "a" :=
  unwrap_dict_flatten_correct.1 exFlattenElems "a" (by decide)

theorem unwrapDictLoop_ok_iff :
    ∀ (elems : List Json) (acc : AList),
      (∃ m, unwrapDictLoop acc elems = .ok m) ↔
      (∀ e ∈ elems, isObjB e = true ∨ isEmptyArr e = true) := by
  intro elems
  induction elems with
  | nil =>
      intro acc
      constructor
      · intro _ e he
        cases he
      · intro _
        exact ⟨acc, rfl⟩
  | cons e rest ih =>
      intro acc
      rcases e with _ | b | n | s | l | kvs
      · simp [unwrapDictLoop, unwrapDictStep, Bind.bind, Except.bind, isObjB,
          isEmptyArr]
      · simp [unwrapDictLoop, unwrapDictStep, Bind.bind, Except.bind, isObjB,
          isEmptyArr]
      · simp [unwrapDictLoop, unwrapDictStep, Bind.bind, Except.bind, isObjB,
          isEmptyArr]
      · simp [unwrapDictLoop, unwrapDictStep, Bind.bind, Except.bind, isObjB,
          isEmptyArr]
      · cases l with
        | nil =>
            rw [show unwrapDictLoop acc (Json.arr [] :: rest)
              = unwrapDictLoop acc rest from rfl]
            rw [ih acc]
            simp [isObjB, isEmptyArr]
        | cons x xs =>
            simp [unwrapDictLoop, unwrapDictStep, Bind.bind, Except.bind,
              isObjB, isEmptyArr]
      · rw [show unwrapDictLoop acc (Json.obj kvs :: rest)
          = unwrapDictLoop (mergeDict acc kvs) rest from rfl]
        rw [ih (mergeDict acc kvs)]
        simp [isObjB, isEmptyArr]

/-- C6 amended: `_unwrap_dict` fails exactly on an element that is neither
a map nor the empty sequence (a non-empty list or a scalar raises the
error); an element that IS a map — single-entry, multi-entry or empty —
is merged wholesale without any error. -/
theorem unwrap_dict_error_iff :
    ∀ elems : List Json,
      (∃ e, unwrap_dict (.arr elems) = .error e) ↔
      (∃ x ∈ elems, isObjB x = false ∧ isEmptyArr x = false) := by
  intro elems
  have hok := unwrapDictLoop_ok_iff elems []
  have hud : ∀ r : Except PyErr AList, unwrap_dict (.arr elems) = r
      ↔ unwrapDictLoop [] elems = r := fun r => Iff.rfl
  constructor
  · intro ⟨e, he⟩
    rw [hud] at he
    by_contra hall
    push_neg at hall
    have : ∀ x ∈ elems, isObjB x = true ∨ isEmptyArr x = true := by
      intro x hx
      rcases hb : isObjB x with _ | _
      · rcases hc : isEmptyArr x with _ | _
        · exact absurd hc (hall x hx hb)
        · exact Or.inr rfl
      · exact Or.inl rfl
    obtain ⟨m, hm⟩ := hok.mpr this
    rw [he] at hm
    cases hm
  · intro ⟨x, hx, hb, hc⟩
    have : ¬ (∀ e ∈ elems, isObjB e = true ∨ isEmptyArr e = true) := by
      intro hall
      rcases hall x hx with h | h
      · rw [hb] at h
        cases h
      · rw [hc] at h
        cases h
    have hnok : ¬ ∃ m, unwrapDictLoop [] elems = .ok m := fun hm => this (hok.mp hm)
    obtain ⟨e, he⟩ := exists_error_of_no_ok hnok
    exact ⟨e, (hud _).mpr he⟩

/-- Witness for the C6 amendment: a scalar element does make the decode
fail. -/
theorem unwrap_dict_error_iff_witness :
    ∃ e, unwrap_dict (.arr [.num 5]) = .error e :=
  (unwrap_dict_error_iff [.num 5]).mpr
    ⟨.num 5, List.mem_singleton.mpr rfl, rfl, rfl⟩

/-- C6 counterexample: an element that is a multi-entry map is NOT a
decode error — `_unwrap_dict` silently merges both entries. -/
theorem unwrap_dict_multi_entry_counterexample :
    unwrap_dict (.arr [.obj [("a", .num 1), ("b", .num 2)]])
      = .ok [("a", .num 1), ("b", .num 2)] := rfl

theorem managerIsCurrentLogin_iff (m : AList) :
    managerIsCurrentLogin m = true ↔
    ∃ v, alookup m "is_current_login" = some v ∧ pyTruthy v = true := by
  unfold managerIsCurrentLogin
  cases h : alookup m "is_current_login" with
  | none => simp [h, pyTruthy]
  | some v => simp [h]

/-- C10: a team's derived `is_current_login` is true iff at least one of
its managers carries a truthy `is_current_login` field; a manager whose
dict lacks the field reports false (via the `.get` default), so a team
whose managers all lack it reports false rather than failing. -/
theorem team_current_login_iff :
    ∀ managers : List AList,
      (teamManagersCurrentLogin managers = true ↔
        ∃ m ∈ managers, ∃ v, alookup m "is_current_login" = some v
          ∧ pyTruthy v = true)
      ∧ (∀ m : AList, alookup m "is_current_login" = none →
        managerIsCurrentLogin m = false)
      ∧ ((∀ m ∈ managers, alookup m "is_current_login" = none) →
        teamManagersCurrentLogin managers = false) := by
  intro managers
  refine ⟨?_, ?_, ?_⟩
  · unfold teamManagersCurrentLogin
    rw [List.any_eq_true]
    constructor
    · intro ⟨m, hm, h⟩
      exact ⟨m, hm, (managerIsCurrentLogin_iff m).mp h⟩
    · intro ⟨m, hm, h⟩
      exact ⟨m, hm, (managerIsCurrentLogin_iff m).mpr h⟩
  · intro m h
    unfold managerIsCurrentLogin
    rw [h]
    rfl
  · intro h
    unfold teamManagersCurrentLogin
    rw [List.any_eq_false]
    intro m hm
    unfold managerIsCurrentLogin
    rw [h m hm]
    simp [pyTruthy]

/-- Witness for C10: two managers, both lacking the field — the team
reports false. -/
theorem team_current_login_iff_witness :
    teamManagersCurrentLogin [[("nickname", .str "x")], [("email", .str "y")]]
      = false :=
  (team_current_login_iff _).2.2 (by
    intro m hm
    fin_cases hm <;> rfl)

theorem leagueIsFinishedE_obj {p : Json} (h : isObjB p = true) :
    leagueIsFinishedE p = .ok (leagueIsFinishedB p) := by
  cases p <;> first
    | rfl
    | exact absurd h (by simp [isObjB])

theorem leaguesLoop_filter :
    ∀ (ls out : List Json),
      leaguesLoop false ls = .ok out →
      (∀ p ∈ out, isObjB p = true) →
      leaguesLoop true ls = .ok (out.filter (fun p => !leagueIsFinishedB p)) := by
  intro ls
  induction ls with
  | nil =>
      intro out h _
      cases h
      rfl
  | cons lg rest ih =>
      intro out h hobj
      rcases hE : getItem lg "league" >>= (getIdx · 0) with e | payload
      · simp only [leaguesLoop, hE] at h
        exact Except.noConfusion h
      · simp only [leaguesLoop, hE, Bool.cond_false] at h
        rcases hT : leaguesLoop false rest with e | t
        · simp only [hT] at h
          exact Except.noConfusion h
        · simp only [hT] at h
          cases h
          have hp : isObjB payload = true :=
            hobj payload (List.mem_cons_self _ _)
          have ht : ∀ p ∈ t, isObjB p = true :=
            fun p hp' => hobj p (List.mem_cons_of_mem _ hp')
          simp only [leaguesLoop, hE, Bool.cond_true,
            leagueIsFinishedE_obj hp, ih t hT ht, Bool.true_and]
          cases hfin : leagueIsFinishedB payload
          · simp [List.filter_cons, hfin]
          · simp [List.filter_cons, hfin]

theorem gamesLoop_filter :
    ∀ (gs out : List Json),
      gamesLoop false gs = .ok out →
      (∀ p ∈ out, isObjB p = true) →
      gamesLoop true gs = .ok (out.filter (fun p => !leagueIsFinishedB p)) := by
  intro gs
  induction gs with
  | nil =>
      intro out h _
      cases h
      rfl
  | cons g rest ih =>
      intro out h hobj
      rcases hE : (getItem g "game" >>= (getIdx · 1) >>= (getItem · "leagues")
          >>= unwrap_array) with e | lgs
      · simp only [gamesLoop, hE] at h
        exact Except.noConfusion h
      · simp only [gamesLoop, hE] at h
        rcases hH : leaguesLoop false lgs with e | here
        · simp only [hH] at h
          exact Except.noConfusion h
        · simp only [hH] at h
          rcases hT : gamesLoop false rest with e | t
          · simp only [hT] at h
            exact Except.noConfusion h
          · simp only [hT] at h
            cases h
            have hhere : ∀ p ∈ here, isObjB p = true :=
              fun p hp => hobj p (List.mem_append.mpr (Or.inl hp))
            have ht : ∀ p ∈ t, isObjB p = true :=
              fun p hp => hobj p (List.mem_append.mpr (Or.inr hp))
            simp only [gamesLoop, hE, leaguesLoop_filter lgs here hH hhere,
              ih t hT ht]
            simp [List.filter_append]

theorem usersLoop_filter :
    ∀ (us out : List Json),
      usersLoop false us = .ok out →
      (∀ p ∈ out, isObjB p = true) →
      usersLoop true us = .ok (out.filter (fun p => !leagueIsFinishedB p)) := by
  intro us
  induction us with
  | nil =>
      intro out h _
      cases h
      rfl
  | cons u rest ih =>
      intro out h hobj
      rcases hE : (getItem u "user" >>= (getIdx · 1) >>= (getItem · "games")
          >>= unwrap_array) with e | gms
      · simp only [usersLoop, hE] at h
        exact Except.noConfusion h
      · simp only [usersLoop, hE] at h
        rcases hH : gamesLoop false gms with e | here
        · simp only [hH] at h
          exact Except.noConfusion h
        · simp only [hH] at h
          rcases hT : usersLoop false rest with e | t
          · simp only [hT] at h
            exact Except.noConfusion h
          · simp only [hT] at h
            cases h
            have hhere : ∀ p ∈ here, isObjB p = true :=
              fun p hp => hobj p (List.mem_append.mpr (Or.inl hp))
            have ht : ∀ p ∈ t, isObjB p = true :=
              fun p hp => hobj p (List.mem_append.mpr (Or.inr hp))
            simp only [usersLoop, hE, gamesLoop_filter gms here hH hhere,
              ih t hT ht]
            simp [List.filter_append]

/-- C8: over any 3-level users→games→leagues response, running
`get_leagues` without `active_only` yields one league payload per leaf
entry in traversal order; running it with `active_only` yields exactly
those same payloads minus the ones whose `is_finished` flag is truthy. -/
theorem get_leagues_filters_finished :
    ∀ (data : Json) (ls : List Json),
      get_leagues data false = .ok ls →
      (∀ p ∈ ls, isObjB p = true) →
      get_leagues data true = .ok (ls.filter (fun p => !leagueIsFinishedB p)) := by
  intro data ls h hobj
  rcases hE : getItem data "users" >>= unwrap_array with e | us
  · simp only [get_leagues, hE] at h
    exact Except.noConfusion h
  · simp only [get_leagues, hE] at h
    simp only [get_leagues, hE]
    exact usersLoop_filter us ls h hobj

/-- Witness for C8 on a concrete response with two leagues, one finished:
`active_only` keeps exactly the unfinished league. -/
theorem get_leagues_filters_finished_witness :
    get_leagues exLeaguesData true
      = .ok ([exLg1, exLg2].filter (fun p => !leagueIsFinishedB p)) :=
  get_leagues_filters_finished exLeaguesData [exLg1, exLg2] rfl (by decide)

/-- C2 counterexample: both calls fail with status 401 and the body is the
valid-JSON object `{"error": "x"}` — the `error.description` field is
absent, so the claim prescribes an ApiError carrying the raw body "B";
the code instead hits an uncaught TypeError (`'x'['description']` is not
covered by `except (ValueError, KeyError)`) and never raises the
structured error. -/
theorem api_req_message_fallback_counterexample :
    api_req (fun _ => ⟨401, "B", some (.obj [("error", .str "x")])⟩)
        = (.error (.pyError .typeError), 2, 1)
      ∧ (api_req (fun _ => ⟨401, "B", some (.obj [("error", .str "x")])⟩)).1
        ≠ .error (.apiError 401 (.raw "B")) :=
  ⟨rfl, fun h => by cases h⟩

theorem getItem_typeError {j : Json} (h : isObjB j = false) (k : String) :
    getItem j k = .error .typeError := by
  cases j <;> first
    | rfl
    | exact absurd h (by simp [isObjB])

/-- C2 amended: `api_req` issues the request once; on a 200 it returns the
payload under the `fantasy_content` wrapper with no refresh; on a non-200
it refreshes exactly once and retries exactly once, never consulting the
transport beyond the second response; if the retry also fails it raises
`YahooApiException` exactly once, carrying the HTTP status and the
`error.description` value when that path exists through JSON objects,
falling back to the raw body when the body is not valid JSON or when the
`error`/`description` key is missing from its (object) parent — but when
the body or its `error` value is JSON of a non-object shape, the
extraction dies with an uncaught TypeError instead of the ApiError. -/
theorem api_req_retry_once :
    (∀ (respond : Nat → HttpResponse) (kvs : AList) (v : Json),
      (respond 0).status = 200 →
      (respond 0).jsonBody = some (.obj kvs) →
      alookup kvs "fantasy_content" = some v →
      api_req respond = (.ok v, 1, 0))
    ∧ (∀ (respond : Nat → HttpResponse) (kvs : AList) (v : Json),
      (respond 0).status ≠ 200 →
      (respond 1).status = 200 →
      (respond 1).jsonBody = some (.obj kvs) →
      alookup kvs "fantasy_content" = some v →
      api_req respond = (.ok v, 2, 1))
    ∧ (∀ (respond : Nat → HttpResponse) (kvs ekvs : AList) (v : Json),
      (respond 0).status ≠ 200 →
      (respond 1).status ≠ 200 →
      (respond 1).jsonBody = some (.obj kvs) →
      alookup kvs "error" = some (.obj ekvs) →
      alookup ekvs "description" = some v →
      api_req respond
        = (.error (.apiError (respond 1).status (.fromField v)), 2, 1))
    ∧ (∀ respond : Nat → HttpResponse,
      (respond 0).status ≠ 200 →
      (respond 1).status ≠ 200 →
      ((respond 1).jsonBody = none
        ∨ (∃ kvs, (respond 1).jsonBody = some (.obj kvs)
            ∧ alookup kvs "error" = none)
        ∨ (∃ kvs ekvs, (respond 1).jsonBody = some (.obj kvs)
            ∧ alookup kvs "error" = some (.obj ekvs)
            ∧ alookup ekvs "description" = none)) →
      api_req respond
        = (.error (.apiError (respond 1).status (.raw (respond 1).content)),
          2, 1))
    ∧ (∀ respond : Nat → HttpResponse,
      (respond 0).status ≠ 200 →
      (respond 1).status ≠ 200 →
      ((∃ j, (respond 1).jsonBody = some j ∧ isObjB j = false)
        ∨ (∃ kvs ev, (respond 1).jsonBody = some (.obj kvs)
            ∧ alookup kvs "error" = some ev ∧ isObjB ev = false)) →
      api_req respond = (.error (.pyError .typeError), 2, 1))
    ∧ (∀ respond respond' : Nat → HttpResponse,
      respond 0 = respond' 0 → respond 1 = respond' 1 →
      api_req respond = api_req respond')
    ∧ (∀ respond : Nat → HttpResponse,
      (api_req respond).2.1 ≤ 2 ∧ (api_req respond).2.2 ≤ 1) := by
  refine ⟨?_, ?_, ?_, ?_, ?_, ?_, ?_⟩
  · intro respond kvs v h200 hjson hfc
    simp [api_req, h200, unwrapFantasyContent, respJsonE, hjson, getItem,
      hfc, Bind.bind, Except.bind, Except.mapError]
  · intro respond kvs v hne h200 hjson hfc
    simp [api_req, hne, h200, unwrapFantasyContent, respJsonE, hjson,
      getItem, hfc, Bind.bind, Except.bind, Except.mapError]
  · intro respond kvs ekvs v hne1 hne2 hjson herr hdesc
    simp [api_req, hne1, hne2, extractErrorMessage, respJsonE, hjson,
      getItem, herr, hdesc, Bind.bind, Except.bind]
  · intro respond hne1 hne2 hcase
    rcases hcase with hnone | ⟨kvs, hjson, herr⟩ | ⟨kvs, ekvs, hjson, herr, hdesc⟩
    · simp [api_req, hne1, hne2, extractErrorMessage, respJsonE, hnone,
        Bind.bind, Except.bind]
    · simp [api_req, hne1, hne2, extractErrorMessage, respJsonE, hjson,
        getItem, herr, Bind.bind, Except.bind]
    · simp [api_req, hne1, hne2, extractErrorMessage, respJsonE, hjson,
        getItem, herr, hdesc, Bind.bind, Except.bind]
  · intro respond hne1 hne2 hcase
    rcases hcase with ⟨j, hjson, hnotobj⟩ | ⟨kvs, ev, hjson, herr, hnotobj⟩
    · simp [api_req, hne1, hne2, extractErrorMessage, respJsonE, hjson,
        getItem_typeError hnotobj, Bind.bind, Except.bind]
    · have hge : getItem (Json.obj kvs) "error" = .ok ev := by
        simp [getItem, herr]
      have hgd : getItem ev "description" = .error .typeError :=
        getItem_typeError hnotobj _
      simp [api_req, hne1, hne2, extractErrorMessage, respJsonE, hjson,
        hge, hgd, Bind.bind, Except.bind]
  · intro respond respond' h0 h1
    simp [api_req, h0, h1]
  · intro respond
    by_cases h1 : (respond 0).status = 200
    · simp [api_req, h1]
    · by_cases h2 : (respond 1).status = 200
      · simp [api_req, h1, h2]
      · simp only [api_req, if_neg h1, if_neg h2]
        cases hm : extractErrorMessage (respond 1) <;> simp

/-- Witness for C2: a 401 twice with body `{"error": {"description":
"bad"}}` raises the structured error carrying status 401 and that
description. -/
theorem api_req_retry_once_witness :
    api_req (fun _ => ⟨401, "B",
        some (.obj [("error", .obj [("description", .str "bad")])])⟩)
      = (.error (.apiError 401 (.fromField (.str "bad"))), 2, 1) :=
  api_req_retry_once.2.2.1
    (fun _ => ⟨401, "B",
      some (.obj [("error", .obj [("description", .str "bad")])])⟩)
    [("error", .obj [("description", .str "bad")])]
    [("description", .str "bad")] (.str "bad")
    (by decide) (by decide) rfl rfl rfl

theorem playerMergeLoop_spec_of_lists_eq_first :
    ∀ (l : List Json) (firstElem : Option Json) (acc : AList),
      (∀ e ∈ l, isArrB e = true → firstElem = some e) →
      playerMergeLoop firstElem acc l = playerMergeSpecLoop acc l := by
  intro l
  induction l with
  | nil => intro firstElem acc _; rfl
  | cons x xs ih =>
      intro firstElem acc h
      have hxs : ∀ e ∈ xs, isArrB e = true → firstElem = some e :=
        fun e he => h e (List.mem_cons_of_mem x he)
      have hstep : playerItemMerge firstElem acc x = playerItemMergeSpec acc x := by
        rcases x with _ | b | n | s | l' | kvs
        · rfl
        · rfl
        · rfl
        · rfl
        · rw [h (.arr l') (List.mem_cons_self _ _) rfl]
          rfl
        · rfl
      simp only [playerMergeLoop, playerMergeSpecLoop, hstep]
      rcases hs : playerItemMergeSpec acc x with e | acc'
      · rfl
      · exact ih firstElem acc' hxs

/-- C7 counterexample: a payload with TWO list-form elements.  The claim
says each list-form element contributes its own flattening, so the second
element's `status` field would be merged; the code flattens the payload's
first element both times, and the resulting attribute map has no
`status`, while the spec-described merge does produce `status: "IR"`. -/
theorem player_init_first_element_counterexample :
    playerInit exPlayerPayloadTwoLists
        = .ok [("eligible_positions", .arr []), ("selected_position", .obj [])]
      ∧ (playerMergeCode exPlayerPayloadTwoLists).map
          (fun d => alookup d "status") = .ok none
      ∧ (playerMergeSpec exPlayerPayloadTwoLists).map
          (fun d => alookup d "status") = .ok (some (.str "IR")) :=
  ⟨rfl, rfl, rfl⟩

/-- C7 amended: list-form and map-form payload elements are all merged
into one attribute map, but each list-form element contributes the
flattened decode of the payload's FIRST element rather than of itself —
which agrees with the claim exactly when every list-form element is the
payload's first element (the usual single-leading-list payload).  In that
shape the `eligible_positions` reduction applies:
`[{"position":"C"},{"position":"LW"}]` becomes `["C","LW"]`. -/
theorem player_init_merges_and_flattens :
    (∀ payload : List Json,
      (∀ e ∈ payload, isArrB e = true → payload.head? = some e) →
      playerMergeCode payload = playerMergeSpec payload)
    ∧ (playerInit exPlayerPayload).map
        (fun d => alookup d "eligible_positions")
      = .ok (some (.arr [.str "C", .str "LW"])) := by
  constructor
  · intro payload h
    exact playerMergeLoop_spec_of_lists_eq_first payload payload.head? [] h
  · rfl

/-- Witness for C7 on the usual single-leading-list payload. -/
theorem player_init_merges_and_flattens_witness :
    playerMergeCode exPlayerPayload = playerMergeSpec exPlayerPayload :=
  player_init_merges_and_flattens.1 exPlayerPayload (by
    intro e he
    fin_cases he
    intro _
    rfl)

end YHandler
